import Mathlib

/-
Verification of the dependency-resolution core of micro-minecraft-launcher.

Shallow embedding of the Python sources under src/mml/:
  * profile_parser.py  (update_deep, ProfileParser.version_path_by_id)
  * rules_check.py     (rules_check)
  * artifact.py        (Artifact.__init__, artifact_exists, verify_checksum)
  * resolve_artifact.py (resolve_artifact, unpack_copy)
  * download_artifact.py (download_artifact)
  * deps_builder.py    (DepsBuilder.get_libraries)
  * launcher.py        (offline auth-UUID derivation)

Machine integers are modelled as Nat with explicit reduction mod 2^32 where
Python's hashlib performs 32-bit arithmetic.  Filesystem and network effects
are modelled by explicit oracles (records of functions) passed to the
embedded operations.  Python exceptions are modelled with Except.
-/

/-- Python runtime errors that the embedded code can raise. -/
inductive PyErr where
  | attributeError : PyErr
  | typeError : PyErr
deriving DecidableEq, Repr

/-- Lookup in a Python dict modelled as an association list
(first binding wins; dict keys are unique, so there is at most one). -/
def assocGet {α : Type} : List (String × α) → String → Option α
  | [], _ => none
  | (k', v) :: rest, k => if k' = k then some v else assocGet rest k

/-- Python dict item assignment `d[k] = v`: replaces the value in place if the
key is present (keeping its position), otherwise appends the new binding. -/
def assocSet {α : Type} : List (String × α) → String → α → List (String × α)
  | [], k, v => [(k, v)]
  | (k', v') :: rest, k, v =>
    if k' = k then (k', v) :: rest else (k', v') :: assocSet rest k v

/-- JSON-like values as Python's json module produces them. -/
inductive JValue where
  | jnull : JValue
  | jbool : Bool → JValue
  | jnum : Int → JValue
  | jstr : String → JValue
  | jlist : List JValue → JValue
  | jobj : List (String × JValue) → JValue

/-- Python dicts parsed from JSON. -/
abbrev JObj := List (String × JValue)

mutual

/-- profile_parser.update_deep(destination, update): recursively updates
`destination` with `update`.  Mapping values recurse, list values extend the
destination list, anything else overwrites.  Calling it with a non-dict
`update` raises AttributeError (`update.items()`); type mismatches between a
destination value and the update value raise as the CPython operations on the
destination object do. -/
def update_deep (destination update : JValue) : Except PyErr JValue :=
  match update with
  | .jobj pairs => update_deep_pairs destination pairs
  | _ => .error .attributeError

/-- One pass of update_deep's `for key, value in update.items()` loop. -/
def update_deep_pairs (destination : JValue) (pairs : List (String × JValue)) :
    Except PyErr JValue :=
  match pairs with
  | [] => .ok destination
  | (key, value) :: rest =>
    match value with
    | .jobj sub =>
      -- destination[key] = update_deep(destination.get(key, {}), value)
      match destination with
      | .jobj dpairs =>
        match update_deep ((assocGet dpairs key).getD (.jobj [])) (.jobj sub) with
        | .ok merged => update_deep_pairs (.jobj (assocSet dpairs key merged)) rest
        | .error e => .error e
      | _ => .error .attributeError  -- non-dict destination has no .get
    | .jlist items =>
      match destination with
      | .jobj dpairs =>
        match assocGet dpairs key with
        | none => update_deep_pairs (.jobj (assocSet dpairs key (.jlist items))) rest
        | some (.jlist ditems) =>
          -- destination[key].extend(value)
          update_deep_pairs (.jobj (assocSet dpairs key (.jlist (ditems ++ items)))) rest
        | some _ => .error .attributeError  -- .extend on a non-list value
      | _ => .error .typeError  -- indexing / membership on a non-dict destination
    | _ =>
      -- destination[key] = value
      match destination with
      | .jobj dpairs => update_deep_pairs (.jobj (assocSet dpairs key value)) rest
      | _ => .error .typeError

end

/-- Host platform as rules_check.py observes it: os_name(), the lowercased
platform.machine(), and the outcome of re.match of an os.version pattern
against the host's version string. -/
structure Platform where
  osn : String
  arch : String
  versionMatch : String → Bool

/-- The optional `os` clause of a rule. -/
structure OsRule where
  name : Option String := none
  arch : Option String := none
  version : Option String := none
deriving DecidableEq, Repr

/-- One rule of a rules list.  A rule without an "action" key is skipped by
rules_check, hence `action` is optional. -/
structure Rule where
  action : Option String := none
  os : Option OsRule := none
  features : Option (List (String × Bool)) := none
deriving DecidableEq, Repr

/-- The os-conditions block of rules_check (source lines 87-115): `name`,
`arch` and `version` sub-checks AND together, each later sub-check running
only while the accumulated result is None or True. -/
def os_rule_check (p : Platform) (osr : OsRule) : Option Bool :=
  let os_result : Option Bool :=
    match osr.name with
    | some n => some (n = p.osn)
    | none => none
  let os_result : Option Bool :=
    if os_result = none ∨ os_result = some true then
      match osr.arch with
      | some a =>
        if a = p.arch then (if os_result = none then some true else os_result)
        else some false
      | none => os_result
    else os_result
  let os_result : Option Bool :=
    if os_result = none ∨ os_result = some true then
      match osr.version with
      | some pat =>
        if p.versionMatch pat then (if os_result = none then some true else os_result)
        else some false
      | none => os_result
    else os_result
  os_result

/-- The `for key, value in rule["features"].items()` loop of rules_check
(source lines 120-128).  A key that is absent from the supplied feature map is
skipped; a match sets the accumulator to True if it is still None; a mismatch
sets it to False and breaks only when the accumulator is currently True
(Python: `elif features_result:`). -/
def features_check_loop (supplied : List (String × Bool))
    (clause : List (String × Bool)) (acc : Option Bool) : Option Bool :=
  match clause with
  | [] => acc
  | (key, value) :: rest =>
    match assocGet supplied key with
    | none => features_check_loop supplied rest acc
    | some fv =>
      if fv = value then
        features_check_loop supplied rest (if acc = none then some true else acc)
      else
        if acc = some true then some false
        else features_check_loop supplied rest acc

/-- The features-conditions block of rules_check (source lines 118-130):
after the loop, a still-None result is forced to False. -/
def features_rule_check (supplied clause : List (String × Bool)) : Option Bool :=
  let r := features_check_loop supplied clause none
  if r = none then some false else r

/-- One iteration of rules_check's `for rule in rules` loop over the running
result (source lines 81-142). -/
def rules_check_step (p : Platform) (features : List (String × Bool))
    (result : Option Bool) (rule : Rule) : Option Bool :=
  match rule.action with
  | none => result
  | some act =>
    let is_allowed : Bool := act = "allow"
    let os_result : Option Bool :=
      match rule.os with
      | some osr => os_rule_check p osr
      | none => none
    let features_result : Option Bool :=
      match rule.features with
      | some clause => features_rule_check features clause
      | none => none
    if os_result = none ∧ features_result = none then some is_allowed
    else if (os_result = none ∨ os_result = some true)
        ∧ (features_result = none ∨ features_result = some true) then some is_allowed
    else if result = none then some (!is_allowed)
    else result

/-- rules_check.rules_check(rules, features): walks the rules from top to
bottom; returns True for an empty rules list; a final None result becomes
False.  A None features argument becomes the empty map in the source; callers
that omit it pass `[]` here. -/
def rules_check (p : Platform) (rules : List Rule)
    (features : List (String × Bool)) : Bool :=
  if rules.isEmpty then true
  else (rules.foldl (rules_check_step p features) none).getD false

/-- Python str.split with a single-character separator: always returns
count(sep)+1 pieces, keeping empty pieces. -/
def splitChar (c : Char) : List Char → List (List Char)
  | [] => [[]]
  | x :: xs =>
    let r := splitChar c xs
    if x = c then [] :: r
    else
      match r with
      | h :: t => (x :: h) :: t
      | [] => [[x]]

/-- Python s.split(sep) for a one-character separator, on Lean strings. -/
def strSplit (s : String) (c : Char) : List String :=
  (splitChar c s.data).map (fun l => ⟨l⟩)

/-- Python sep.join(parts). -/
def joinSep (sep : String) : List String → String
  | [] => ""
  | [x] => x
  | x :: xs => x ++ sep ++ joinSep sep xs

/-- Python s.endswith(t). -/
def strEndsWith (s t : String) : Bool :=
  decide (s.data.drop (s.data.length - t.data.length) = t.data)

/-- Python s[:-n] for n ≤ len(s): drop the last n characters. -/
def strDropRight (s : String) (n : Nat) : String :=
  ⟨s.data.take (s.data.length - n)⟩

/-- ASCII lowercasing of one character (str.lower; the strings compared in
artifact.py are hex digests, so ASCII suffices). -/
def charLower (c : Char) : Char :=
  if c.toNat ≥ 65 ∧ c.toNat ≤ 90 then Char.ofNat (c.toNat + 32) else c

/-- Python s.lower() on ASCII strings. -/
def strLower (s : String) : String :=
  ⟨s.data.map charLower⟩

/-- os.path.join(a, b) for a relative second component (posix separator). -/
def joinPath (a b : String) : String :=
  a ++ "/" ++ b

/-- Default artifact url if none is specified (artifact.py URL_DEFAULT). -/
def URL_DEFAULT : String := "https://libraries.minecraft.net/"

/-- The artifact JSON dict as artifact.py reads it: every key the source
touches, each optional. -/
structure ArtifactJson where
  path : Option String := none
  name : Option String := none
  url : Option String := none
  size : Option Nat := none
  sha1 : Option String := none
  md5 : Option String := none
  sha256 : Option String := none
  sha512 : Option String := none
  checksum : Option String := none
  checksums : Option (List String) := none
deriving DecidableEq, Repr

/-- Truthiness of the artifact dict (`if artifact_dict:` in deps_builder.py):
an empty dict is falsy. -/
def ArtifactJson.isTruthy (a : ArtifactJson) : Bool :=
  a.path.isSome || a.name.isSome || a.url.isSome || a.size.isSome ||
  a.sha1.isSome || a.md5.isSome || a.sha256.isSome || a.sha512.isSome ||
  a.checksum.isSome || a.checksums.isSome

/-- The Artifact instance after __init__: the (possibly rewritten) dict plus
the constructor arguments the class stores verbatim. -/
structure Artifact where
  json : ArtifactJson
  parent_dir : String
  unpack_into : Option String
  exclude_files : Option (List String)
  copy_to : Option String
deriving DecidableEq, Repr

/-- Extension split of artifact.py lines 72-77: the first of .jar/.zip/.dll/.so
that the synthesized uri ends with is stripped; the default extension is .jar.
Returns (ext, uri without ext). -/
def extSplit (uri : String) : String × String :=
  if strEndsWith uri ".jar" then (".jar", strDropRight uri 4)
  else if strEndsWith uri ".zip" then (".zip", strDropRight uri 4)
  else if strEndsWith uri ".dll" then (".dll", strDropRight uri 4)
  else if strEndsWith uri ".so" then (".so", strDropRight uri 3)
  else (".jar", uri)

/-- Artifact.__init__ (artifact.py lines 30-93): applies the target_file
override, then, when the dict lacks "path" but has a Maven coordinate "name"
of the form group:name:version, synthesizes path group-as-dirs/name/version/
name-version.ext, defaults the url to URL_DEFAULT, appends "-universal" to the
uri (not the path) for the net.minecraftforge group, and appends uri+ext to
the url with exactly one "/" separator. -/
def Artifact.init (artifact : ArtifactJson) (parentDir : String)
    (targetFile : Option String) (unpackInto : Option String)
    (excludeFiles : Option (List String)) (copyTo : Option String) : Artifact :=
  let a :=
    match targetFile with
    | some tf => { artifact with path := some tf }
    | none => artifact
  let a :=
    if a.path = none then
      match a.name with
      | some nm =>
        match strSplit nm ':' with
        | [grp, name, version] =>
          let package := joinSep "/" (strSplit grp '.')
          let uri0 := package ++ "/" ++ name ++ "/" ++ version ++ "/" ++ name ++ "-" ++ version
          let (ext, uri) := extSplit uri0
          let a := { a with path := some (uri ++ ext) }
          let a := if a.url = none then { a with url := some URL_DEFAULT } else a
          let uri := if package = "net/minecraftforge" then uri ++ "-universal" else uri
          let baseUrl := a.url.getD ""
          let baseUrl := if strEndsWith baseUrl "/" then baseUrl else baseUrl ++ "/"
          { a with url := some (baseUrl ++ uri ++ ext) }
        | _ => a  -- unknown coordinate format: only a warning is logged
      | none => a
    else a
  ⟨a, parentDir, unpackInto, excludeFiles, copyTo⟩

/-- Filesystem oracle: which absolute paths exist, and the hex digest of the
file at a path under a named hash algorithm. -/
structure FS where
  pathExists : String → Bool
  digest : String → String → String

/-- Artifact.artifact_exists: False when the dict has no "path", else whether
parent_dir/path exists on disk. -/
def Artifact.artifact_exists (art : Artifact) (fs : FS) : Bool :=
  match art.json.path with
  | none => false
  | some p => fs.pathExists (joinPath art.parent_dir p)

/-- The (algorithm, digest) candidates of Artifact.verify_checksum lines
176-189: the four modern keys in fixed order, then the legacy "checksum"
string and "checksums" list, both treated as SHA-1. -/
def allowed_checksums (a : ArtifactJson) : List (String × String) :=
  (match a.sha1 with | some c => [("sha1", c)] | none => []) ++
  (match a.md5 with | some c => [("md5", c)] | none => []) ++
  (match a.sha256 with | some c => [("sha256", c)] | none => []) ++
  (match a.sha512 with | some c => [("sha512", c)] | none => []) ++
  (match a.checksum with | some c => [("sha1", c)] | none => []) ++
  (match a.checksums with | some cs => cs.map (fun c => ("sha1", c)) | none => [])

/-- The verification loop of Artifact.verify_checksum lines 197-225: the first
candidate whose digest matches (case-insensitively) passes the artifact; if
none matches the result is False.  The unknown-algorithm branch of the source
is unreachable here because `allowed_checksums` only produces the four fixed
algorithm names. -/
def verify_loop (fs : FS) (p : String) : List (String × String) → Bool
  | [] => false
  | (alg, chk) :: rest =>
    if strLower (fs.digest alg p) = strLower chk then true
    else verify_loop fs p rest

/-- Artifact.verify_checksum: True when the artifact file does not exist, True
when no checksum is declared, otherwise whether some declared checksum
matches. -/
def Artifact.verify_checksum (art : Artifact) (fs : FS) : Bool :=
  if art.artifact_exists fs = false then true
  else
    let allowed := allowed_checksums art.json
    if allowed.isEmpty then true
    else verify_loop fs (joinPath art.parent_dir (art.json.path.getD "")) allowed

/-- How many download attempts are allowed (resolve_artifact.py and
download_artifact.py, DOWNLOAD_ATTEMPTS). -/
def DOWNLOAD_ATTEMPTS : Nat := 3

/-- Delay in seconds slept between attempts (ATTEMPT_DELAY, 1.0 s in the
source). -/
def ATTEMPT_DELAY : Nat := 1

/-- Oracle for the unpack/copy stage: whether the zip extraction raises,
whether the copy destination already exists, and whether the copy raises. -/
structure UnpackWorld where
  unpackOk : Bool
  copyDestExists : Bool
  copyOk : Bool
deriving DecidableEq, Repr

/-- resolve_artifact.unpack_copy: unpacks when unpack_into is set (False on a
zip error), then copies when copy_to is set and the destination does not
exist (False on a copy error). -/
def unpack_copy (art : Artifact) (w : UnpackWorld) : Bool :=
  (if art.unpack_into.isSome then w.unpackOk else true) &&
  (if art.copy_to.isSome && !w.copyDestExists then w.copyOk else true)

/-- World oracle for resolve_artifact: the initial filesystem, the filesystem
after the k-th HTTP attempt completes (1-indexed; a failed transfer leaves
the previous state), and the unpack/copy outcomes. -/
structure ResolveWorld where
  fs0 : FS
  fsAfter : Nat → FS
  unpack : UnpackWorld

/-- Observable outcome of resolve_artifact: the returned value, how many HTTP
download attempts ran, and how many ATTEMPT_DELAY sleeps happened. -/
structure ResolveResult where
  result : Option String
  downloads : Nat
  sleeps : Nat
deriving DecidableEq, Repr

/-- resolve_artifact.resolve_artifact body, with the recursion depth bounded
by an explicit fuel (the `_attempt < DOWNLOAD_ATTEMPTS` guard keeps the fuel
from ever reaching 0 when the initial fuel is DOWNLOAD_ATTEMPTS).
Source-faithful detail (line 97): the recursive retry call passes only
`_attempt`, so `verify_checksums` resets to its default True on every
retry. -/
def resolve_artifact_go (art : Artifact) (w : ResolveWorld) (fs : FS)
    (attempt : Nat) (verify_checksums : Bool) (fuel : Nat) : ResolveResult :=
  if art.artifact_exists fs && (!verify_checksums || art.verify_checksum fs) then
    -- the unpack_copy return value is ignored on this path (source lines 55-56)
    ⟨some (joinPath art.parent_dir (art.json.path.getD "")), 0, 0⟩
  else if art.json.url = none then ⟨none, 0, 0⟩
  else if art.json.path = none then ⟨none, 0, 0⟩
  else
    let fs2 := w.fsAfter (attempt + 1)
    if !(art.artifact_exists fs2) || (verify_checksums && !(art.verify_checksum fs2)) then
      if attempt + 1 < DOWNLOAD_ATTEMPTS then
        match fuel with
        | 0 => ⟨none, 1, 0⟩  -- unreachable with initial fuel DOWNLOAD_ATTEMPTS
        | f + 1 =>
          let r := resolve_artifact_go art w fs2 (attempt + 1) true f
          ⟨r.result, r.downloads + 1, r.sleeps + 1⟩
      else ⟨none, 1, 0⟩
    else
      if unpack_copy art w.unpack then
        ⟨some (joinPath art.parent_dir (art.json.path.getD "")), 1, 0⟩
      else ⟨none, 1, 0⟩

/-- resolve_artifact.resolve_artifact(artifact_, verify_checksums): entry
point with `_attempt = 0`. -/
def resolve_artifact (art : Artifact) (w : ResolveWorld)
    (verify_checksums : Bool) : ResolveResult :=
  resolve_artifact_go art w w.fs0 0 verify_checksums DOWNLOAD_ATTEMPTS

/-- Network oracle for download_artifact: whether the k-th HTTP attempt
(1-indexed) leaves the target file on disk. -/
structure DlWorld where
  attemptWrites : Nat → Bool

/-- download_artifact.download_artifact body.  The checksum checks of this
variant read `artifact_.checksum_alg`, `artifact_.target_checksum` and
`artifact_.calculate_actual_checksum()` (lines 52 and 94), attributes the
Artifact class of artifact.py does not define, so whenever one of them is
evaluated the call raises AttributeError.  They are evaluated exactly when the
short-circuiting `artifact_.artifact_exists` conjunct/disjunct before them
lets evaluation reach them, i.e. when the file exists. -/
def download_artifact_go (art : Artifact) (w : DlWorld) (fileExists : Bool)
    (attempt : Nat) (fuel : Nat) : Except PyErr (Option String) :=
  if fileExists then
    -- line 51: `artifact_.artifact_exists and (not artifact_.checksum_alg or ...)`
    .error .attributeError
  else if art.json.url = none then .ok none
  else if art.json.path = none then .ok none
  else
    let exists2 := fileExists || w.attemptWrites (attempt + 1)
    if exists2 then
      -- line 93: `not artifact_.artifact_exists or (artifact_.checksum_alg and ...)`
      .error .attributeError
    else if attempt + 1 < DOWNLOAD_ATTEMPTS then
      match fuel with
      | 0 => .ok none  -- unreachable with initial fuel DOWNLOAD_ATTEMPTS
      | f + 1 => download_artifact_go art w exists2 (attempt + 1) f
    else .ok none

/-- download_artifact.download_artifact(artifact_) entry point. -/
def download_artifact (art : Artifact) (w : DlWorld) (fs0 : FS) :
    Except PyErr (Option String) :=
  download_artifact_go art w (art.artifact_exists fs0) 0 DOWNLOAD_ATTEMPTS

/-- One entry of ProfileParser._versions after parse_versions(): local
versions carry id/type/releaseTime/path/local, manifest versions additionally
carry url and sha1 and no "local" key (modelled local = false). -/
structure VersionInfo where
  id : String
  vtype : String
  releaseTime : String
  url : Option String := none
  sha1 : Option String := none
  path : String
  isLocal : Bool := false
deriving DecidableEq, Repr

/-- The version_info dict viewed as the artifact dict handed to
Artifact(version_info, parent_dir=versions_dir): of its keys, artifact.py
reads path, url and sha1 (id, type and releaseTime are ignored). -/
def versionInfoToArtifactJson (vi : VersionInfo) : ArtifactJson :=
  { path := some vi.path, url := vi.url, sha1 := vi.sha1 }

/-- ProfileParser.version_path_by_id (profile_parser.py lines 250-276): finds
the last matching entry, returns its path if local, else None unless
`download`, else downloads the descriptor via download_artifact and returns
the path on success. -/
def version_path_by_id (versions : List VersionInfo) (versionId : String)
    (download : Bool) (versionsDir : String) (fs0 : FS) (w : DlWorld) :
    Except PyErr (Option String) :=
  let version_info := versions.foldl
    (fun acc vi => if vi.id = versionId then some vi else acc) none
  match version_info with
  | none => .ok none
  | some vi =>
    if vi.isLocal then .ok (some vi.path)
    else if !download then .ok none
    else
      match download_artifact
          (Artifact.init (versionInfoToArtifactJson vi) versionsDir none none none none)
          w fs0 with
      | .error e => .error e
      | .ok none => .ok none
      | .ok (some _) => .ok (some vi.path)

/-- The `downloads` block of a library entry. -/
structure LibraryDownloads where
  artifact : Option ArtifactJson := none
  classifiers : Option (List (String × ArtifactJson)) := none
deriving DecidableEq, Repr

/-- One element of a version record's `libraries` list, with the keys
DepsBuilder.get_libraries reads. -/
structure Library where
  name : Option String := none
  rules : Option (List Rule) := none
  clientreq : Option Bool := none
  downloads : Option LibraryDownloads := none
  artifact : Option ArtifactJson := none
  classifiers : Option (List (String × ArtifactJson)) := none
  natives : Option (List (String × String)) := none
  extractExclude : Option (List String) := none
deriving DecidableEq, Repr

/-- The library entry's own dict used as an artifact dict when it has neither
a downloads.artifact nor classifiers (deps_builder.py line 234): of its keys,
artifact.py reads the Maven coordinate "name". -/
def Library.asArtifactJson (l : Library) : ArtifactJson :=
  { name := l.name }

/-- The per-entry body of DepsBuilder.get_libraries after the skip checks
(deps_builder.py lines 228-256): resolves the classifiers dict and the main
artifact dict through the new and legacy layouts, enqueues the main artifact,
and enqueues the native classifier for the host OS with unpack_into set to
the natives dir and exclude_files from extract.exclude.  Returns the paths
appended to `libs` and the artifacts enqueued, in order. -/
def process_library (p : Platform) (libsDir nativesDir : String)
    (library : Library) : List (Option String) × List Artifact :=
  let classifiers_dict : Option (List (String × ArtifactJson)) :=
    match library.downloads with
    | some dl =>
      (match dl.classifiers with
       | some c => some c
       | none => library.classifiers)
    | none => library.classifiers
  let artifact_dict : Option ArtifactJson :=
    match library.downloads with
    | some dl =>
      (match dl.artifact with
       | some a => some a
       | none => library.artifact)
    | none => library.artifact
  let classifiersFalsy : Bool :=
    match classifiers_dict with
    | none => true
    | some c => c.isEmpty
  let artifact_dict :=
    if artifact_dict = none ∧ classifiersFalsy then some library.asArtifactJson
    else artifact_dict
  let mainPart : List (Option String) × List Artifact :=
    match artifact_dict with
    | some aj =>
      if aj.isTruthy then
        let art := Artifact.init aj libsDir none none none none
        ([art.json.path], [art])
      else ([], [])
    | none => ([], [])
  let nativePart : List (Option String) × List Artifact :=
    if !classifiersFalsy then
      match classifiers_dict with
      | some cdict =>
        (match library.natives with
         | some natives =>
           (match assocGet natives p.osn with
            | some classifier_name =>
              (match assocGet cdict classifier_name with
               | some cj =>
                 let native := Artifact.init cj libsDir none (some nativesDir)
                   (some (library.extractExclude.getD [])) none
                 ([native.json.path], [native])
               | none => ([], []))
            | none => ([], []))
         | none => ([], []))
      | none => ([], [])
    else ([], [])
  (mainPart.1 ++ nativePart.1, mainPart.2 ++ nativePart.2)

/-- Observable outcome of DepsBuilder.get_libraries: the returned `libs`
paths, the artifacts handed to the add_artifact callback, and the names of
entries skipped by the rules/clientreq check (the source logs each). -/
structure LibsOut where
  libs : List (Option String)
  queued : List Artifact
  skipped : List String
deriving DecidableEq, Repr

/-- DepsBuilder.get_libraries loop (deps_builder.py lines 217-258): entries
without a "name" are ignored; an entry is skipped when it carries rules and
`rules_check(library["rules"])` — called WITHOUT the features map, so with
the empty map — is False, or when legacy clientreq == False. -/
def get_libraries (p : Platform) (libsDir nativesDir : String)
    (libraries : List Library) : LibsOut :=
  libraries.foldl
    (fun acc library =>
      match library.name with
      | none => acc
      | some name =>
        if (library.rules.isSome ∧ rules_check p (library.rules.getD []) [] = false)
            ∨ library.clientreq = some false then
          { acc with skipped := acc.skipped ++ [name] }
        else
          let parts := process_library p libsDir nativesDir library
          { libs := acc.libs ++ parts.1, queued := acc.queued ++ parts.2,
            skipped := acc.skipped })
    ⟨[], [], []⟩

/-- Modulus of 32-bit arithmetic. -/
def M32 : Nat := 4294967296

/-- Bitwise complement within 32 bits (operand below 2^32). -/
def not32 (a : Nat) : Nat := a ^^^ 4294967295

/-- 32-bit left rotation (operand below 2^32, shift between 1 and 31). -/
def rotl32 (x s : Nat) : Nat := ((x <<< s) % M32) ||| (x >>> (32 - s))

/-- Little-endian byte decomposition: n bytes of x. -/
def leBytes : Nat → Nat → List Nat
  | 0, _ => []
  | n + 1, x => (x % 256) :: leBytes n (x / 256)

/-- Groups of four little-endian bytes into 32-bit words. -/
def bytesToWordsLE : List Nat → List Nat
  | b0 :: b1 :: b2 :: b3 :: rest =>
    (b0 + 256 * b1 + 65536 * b2 + 16777216 * b3) :: bytesToWordsLE rest
  | _ => []

/-- The MD5 per-round additive constants (RFC 1321), in round order. -/
def md5K : List Nat :=
  [0xd76aa478, 0xe8c7b756, 0x242070db, 0xc1bdceee,
   0xf57c0faf, 0x4787c62a, 0xa8304613, 0xfd469501,
   0x698098d8, 0x8b44f7af, 0xffff5bb1, 0x895cd7be,
   0x6b901122, 0xfd987193, 0xa679438e, 0x49b40821,
   0xf61e2562, 0xc040b340, 0x265e5a51, 0xe9b6c7aa,
   0xd62f105d, 0x02441453, 0xd8a1e681, 0xe7d3fbc8,
   0x21e1cde6, 0xc33707d6, 0xf4d50d87, 0x455a14ed,
   0xa9e3e905, 0xfcefa3f8, 0x676f02d9, 0x8d2a4c8a,
   0xfffa3942, 0x8771f681, 0x6d9d6122, 0xfde5380c,
   0xa4beea44, 0x4bdecfa9, 0xf6bb4b60, 0xbebfbc70,
   0x289b7ec6, 0xeaa127fa, 0xd4ef3085, 0x04881d05,
   0xd9d4d039, 0xe6db99e5, 0x1fa27cf8, 0xc4ac5665,
   0xf4292244, 0x432aff97, 0xab9423a7, 0xfc93a039,
   0x655b59c3, 0x8f0ccc92, 0xffeff47d, 0x85845dd1,
   0x6fa87e4f, 0xfe2ce6e0, 0xa3014314, 0x4e0811a1,
   0xf7537e82, 0xbd3af235, 0x2ad7d2bb, 0xeb86d391]

/-- The MD5 per-round left-rotation amounts (RFC 1321), in round order. -/
def md5S : List Nat :=
  [7, 12, 17, 22, 7, 12, 17, 22, 7, 12, 17, 22, 7, 12, 17, 22,
   5, 9, 14, 20, 5, 9, 14, 20, 5, 9, 14, 20, 5, 9, 14, 20,
   4, 11, 16, 23, 4, 11, 16, 23, 4, 11, 16, 23, 4, 11, 16, 23,
   6, 10, 15, 21, 6, 10, 15, 21, 6, 10, 15, 21, 6, 10, 15, 21]

/-- One MD5 round i over state (a, b, c, d) and the 16 message words. -/
def md5Round (words : List Nat) (st : Nat × Nat × Nat × Nat) (i : Nat) :
    Nat × Nat × Nat × Nat :=
  let (a, b, c, d) := st
  let fg : Nat × Nat :=
    if i < 16 then ((b &&& c) ||| (not32 b &&& d), i)
    else if i < 32 then ((d &&& b) ||| (not32 d &&& c), (5 * i + 1) % 16)
    else if i < 48 then (b ^^^ c ^^^ d, (3 * i + 5) % 16)
    else (c ^^^ (b ||| not32 d), (7 * i) % 16)
  let f := (fg.1 + a + md5K.getD i 0 + words.getD fg.2 0) % M32
  (d, (b + rotl32 f (md5S.getD i 0)) % M32, b, c)

/-- Compression of one 64-byte block into the running MD5 state. -/
def md5Block (block : List Nat) (st : Nat × Nat × Nat × Nat) :
    Nat × Nat × Nat × Nat :=
  let words := bytesToWordsLE block
  let r := (List.range 64).foldl (md5Round words) st
  ((st.1 + r.1) % M32, (st.2.1 + r.2.1) % M32,
   (st.2.2.1 + r.2.2.1) % M32, (st.2.2.2 + r.2.2.2) % M32)

/-- Folds the given number of 64-byte blocks of the padded message into the
state. -/
def md5Blocks : Nat → List Nat → (Nat × Nat × Nat × Nat) → Nat × Nat × Nat × Nat
  | 0, _, st => st
  | n + 1, bytes, st => md5Blocks n (bytes.drop 64) (md5Block (bytes.take 64) st)

/-- MD5 digest (16 bytes) of a byte string, as hashlib.md5(...).digest()
computes it: pad with 0x80 and zeros to 56 mod 64, append the 64-bit
little-endian bit length, compress block-wise from the standard initial
state, and serialize the four state words little-endian. -/
def md5 (msg : List Nat) : List Nat :=
  let len := msg.length
  let padZeros := (119 - len % 64) % 64
  let padded := msg ++ [128] ++ List.replicate padZeros 0
    ++ leBytes 8 ((len * 8) % (2 ^ 64))
  let st := md5Blocks (padded.length / 64) padded
    (1732584193, 4023233417, 2562383102, 271733878)
  leBytes 4 st.1 ++ leBytes 4 st.2.1 ++ leBytes 4 st.2.2.1 ++ leBytes 4 st.2.2.2

/-- Lowercase hex digit of a value below 16. -/
def hexDigit (n : Nat) : Char :=
  if n < 10 then Char.ofNat (48 + n) else Char.ofNat (87 + n)

/-- Lowercase hex encoding of a byte list (bytearray.hex()). -/
def bytesHex (bs : List Nat) : String :=
  ⟨(bs.map (fun b => [hexDigit (b / 16), hexDigit (b % 16)])).flatten⟩

/-- UTF-8 encoding of one character (str.encode("utf-8")). -/
def utf8Char (c : Char) : List Nat :=
  let n := c.toNat
  if n < 128 then [n]
  else if n < 2048 then [192 + n / 64, 128 + n % 64]
  else if n < 65536 then [224 + n / 4096, 128 + n / 64 % 64, 128 + n % 64]
  else [240 + n / 262144, 128 + n / 4096 % 64, 128 + n / 64 % 64, 128 + n % 64]

/-- UTF-8 encoding of a string. -/
def utf8Bytes (s : String) : List Nat :=
  (s.data.map utf8Char).flatten

/-- The offline auth-UUID of launcher.py lines 246-250: the MD5 digest of
"OfflinePlayer:<username>" with byte 6 set to (b & 0x0F) | 0x30 and byte 8 to
(b & 0x3F) | 0x80, hex-encoded lowercase. -/
def offline_uuid (userName : String) : String :=
  let auth_uuid := md5 (utf8Bytes ("OfflinePlayer:" ++ userName))
  let auth_uuid := auth_uuid.set 6 ((auth_uuid.getD 6 0 &&& 15) ||| 48)
  let auth_uuid := auth_uuid.set 8 ((auth_uuid.getD 8 0 &&& 63) ||| 128)
  bytesHex auth_uuid

/-- The auth outcome of Launcher.run lines 240-254: the feature map after the
demo-mode branch and the auth_uuid entry placed into the environment map
(absent when the final uuid is falsy). -/
structure AuthResult where
  features : List (String × Bool)
  auth_uuid : Option String
deriving DecidableEq, Repr

/-- Launcher.run lines 240-254.  Python truthiness: a missing username or
uuid is None or the empty string, both falsy; an empty string models both.
No username enables the is_demo_user feature; a username without a uuid
derives the offline uuid; the env entry auth_uuid is set only when the final
uuid is truthy. -/
def launcher_auth (userName : String) (authUuid : String)
    (features : List (String × Bool)) : AuthResult :=
  if userName = "" then
    { features := assocSet features "is_demo_user" true,
      auth_uuid := if authUuid = "" then none else some authUuid }
  else
    let uuid := if authUuid = "" then offline_uuid userName else authUuid
    { features := features,
      auth_uuid := if uuid = "" then none else some uuid }

/-- A concrete Linux host for concrete evaluations. -/
def linuxPlatform : Platform := ⟨"linux", "x86_64", fun _ => false⟩

/-- A filesystem with no files. -/
def emptyFS : FS := ⟨fun _ => false, fun _ _ => ""⟩

/-- A filesystem where every file exists and every digest is "ffff" (so any
artifact with a declared checksum fails verification). -/
def mismatchFS : FS := ⟨fun _ => true, fun _ _ => "ffff"⟩

/-- A legacy forge library descriptor (no path, Maven coordinate name). -/
def forgeArtifact : Artifact :=
  Artifact.init { name := some "net.minecraftforge:forge:1.0" } "libraries"
    none none none none

/-- A log-config style artifact with a declared SHA-1 (deps_builder.py
get_log_config resolves such an artifact with verify_checksums=False). -/
def logConfigArtifact : Artifact :=
  Artifact.init
    { path := some "client-1.12.xml",
      url := some "https://launcher.mojang.com/v1/objects/client-1.12.xml",
      sha1 := some "0123456789abcdef0123456789abcdef01234567" }
    "game/assets/log_configs" none none none none

/-- A download world whose first HTTP attempt leaves no file and whose later
attempts leave a file with a non-matching checksum. -/
def retryChecksumWorld : ResolveWorld :=
  ⟨emptyFS, fun k => if k = 1 then emptyFS else mismatchFS, ⟨true, false, true⟩⟩

/-- A filesystem where every file exists and every digest equals the sha1
declared by logConfigArtifact. -/
def matchFS : FS :=
  ⟨fun _ => true, fun _ _ => "0123456789abcdef0123456789abcdef01234567"⟩

/-- A download world whose first two HTTP attempts leave a file with a wrong
checksum and whose third leaves a file with the declared checksum. -/
def retryThenOkWorld : ResolveWorld :=
  ⟨emptyFS, fun k => if k ≤ 2 then mismatchFS else matchFS, ⟨true, false, true⟩⟩

/-- A rules list gated only on the feature flag "f". -/
def featureGatedRules : List Rule :=
  [{ action := some "allow", features := some [("f", true)] }]

/-- A library whose rules are satisfied exactly when feature "f" is true. -/
def featureGatedLib : Library :=
  { name := some "com.example:demo:1.0", rules := some featureGatedRules }

/-- A non-local manifest entry as parse_versions() stores it. -/
def manifestVersionInfo : VersionInfo :=
  { id := "1.20.1", vtype := "release",
    releaseTime := "2023-06-12T13:25:51+00:00",
    url := some "https://piston-meta.mojang.com/v1/packages/abc/1.20.1.json",
    sha1 := some "00ff", path := "1.20.1/1.20.1.json", isLocal := false }

/-- A network where every HTTP attempt writes the target file. -/
def alwaysWritesWorld : DlWorld := ⟨fun _ => true⟩

/-- An artifact with a declared checksum whose file is absent in emptyFS. -/
def absentChecksumArtifact : Artifact :=
  Artifact.init { path := some "libs/a.jar", sha1 := some "00ff" } "game"
    none none none none

/-- A parent version record fragment with a list-valued and a scalar key. -/
def parentRecord : JObj :=
  [("libraries", .jlist [.jstr "L1"]), ("mainClass", .jstr "a.b.C")]

/-- A child record extending the parent's libraries list. -/
def childRecord : JObj := [("libraries", .jlist [.jstr "L2"])]

/-- A grandchild record extending the libraries list again. -/
def grandRecord : JObj := [("libraries", .jlist [.jstr "L3"])]

/-- The deep merge of childRecord over parentRecord. -/
def mergedPC : JObj :=
  [("libraries", .jlist [.jstr "L1", .jstr "L2"]), ("mainClass", .jstr "a.b.C")]

/-- The deep merge of grandRecord over mergedPC. -/
def mergedPBC : JObj :=
  [("libraries", .jlist [.jstr "L1", .jstr "L2", .jstr "L3"]),
   ("mainClass", .jstr "a.b.C")]

/-- C10: Artifact.verify_checksum returns true whenever the artifact file
does not exist at parent_dir/path (in particular when no path is set), even
when checksums are declared: nonexistence alone never fails verification. -/
theorem c10_verify_checksum_absent (art : Artifact) (fs : FS)
    (h : art.artifact_exists fs = false) : art.verify_checksum fs = true := by
  simp [Artifact.verify_checksum, h]

/-- Witness for c10_verify_checksum_absent: a concrete artifact with a
declared sha1 whose file does not exist. -/
theorem c10_witness :
    absentChecksumArtifact.artifact_exists emptyFS = false ∧
    absentChecksumArtifact.verify_checksum emptyFS = true :=
  ⟨rfl, c10_verify_checksum_absent absentChecksumArtifact emptyFS rfl⟩

/-- C4: for every features map and rule list whose final rule carries an
action and neither an os nor a features clause, rules_check returns true when
that action is allow and false when it is disallow, regardless of the
preceding rules. -/
theorem c4_final_unconditional_rule :
    ∀ (p : Platform) (feats : List (String × Bool)) (front : List Rule),
      rules_check p (front ++ [{ action := some "allow" }]) feats = true ∧
      rules_check p (front ++ [{ action := some "disallow" }]) feats = false := by
  intro p feats front
  constructor <;>
    simp [rules_check, List.foldl_append, rules_check_step, List.isEmpty_eq_true]

/-- Counterexample to C5 as stated: the single rule
`[{action: allow, features: {f: true}}]` evaluated with an empty feature map
(f absent) returns false, not true. -/
theorem c5_counterexample :
    rules_check linuxPlatform featureGatedRules [] = false := by decide

/-- C5 amended: a flag missing from the supplied map is skipped individually
(another listed, matching flag still passes the rule), but when every listed
flag is absent the features result is forced to false after the loop, so the
single allow rule gated on an absent flag yields false. -/
theorem c5_missing_flags_amended :
    (∀ (p : Platform) (feats clause : List (String × Bool)),
      (∀ kv ∈ clause, assocGet feats kv.1 = none) →
      rules_check p [{ action := some "allow", features := some clause }] feats
        = false)
    ∧ (∀ (p : Platform) (feats : List (String × Bool)) (k g : String) (b : Bool),
      assocGet feats k = none → assocGet feats g = some b →
      rules_check p [{ action := some "allow", features := some [(k, true), (g, b)] }]
        feats = true) := by
  constructor
  · intro p feats clause h
    have hloop : features_check_loop feats clause none = none := by
      induction clause with
      | nil => rfl
      | cons kv rest ih =>
        have hk := h kv (by simp)
        simp only [features_check_loop, hk]
        exact ih (fun kv hm => h kv (by simp [hm]))
    simp [rules_check, rules_check_step, features_rule_check, hloop]
  · intro p feats k g b hk hg
    simp [rules_check, rules_check_step, features_rule_check,
      features_check_loop, hk, hg]

/-- Witness for c5_missing_flags_amended at a concrete map and clauses. -/
theorem c5_witness :
    rules_check linuxPlatform
      [{ action := some "allow", features := some [("f", true)] }] [("g", true)]
      = false ∧
    rules_check linuxPlatform
      [{ action := some "allow", features := some [("f", true), ("g", true)] }]
      [("g", true)] = true :=
  ⟨c5_missing_flags_amended.1 linuxPlatform [("g", true)] [("f", true)]
      (by decide),
   c5_missing_flags_amended.2 linuxPlatform [("g", true)] "f" "g" true
      (by decide) (by decide)⟩

/-- Helper: a string ends with itself. -/
theorem strEndsWith_self (s : String) : strEndsWith s s = true := by
  simp [strEndsWith]

/-- Helper: appending on the left preserves an ending. -/
theorem strEndsWith_append_left (a b c : String)
    (h : strEndsWith b c = true) : strEndsWith (a ++ b) c = true := by
  have hb := of_decide_eq_true h
  have hle : c.data.length ≤ b.data.length := by
    have hlen := congrArg List.length hb
    rw [List.length_drop] at hlen
    omega
  simp only [strEndsWith]
  apply decide_eq_true
  rw [String.data_append, List.length_append]
  have harith : a.data.length + b.data.length - c.data.length
      = a.data.length + (b.data.length - c.data.length) := by omega
  rw [harith, List.drop_append]
  exact hb

/-- Counterexample to C8 as stated: for the net.minecraftforge coordinate
forge:1.0 the synthesized url ends with forge-1.0-universal.jar but the
synthesized path is forge-1.0.jar — the "-universal" tail is appended to the
uri only after the path has been set. -/
theorem c8_counterexample :
    forgeArtifact.json.path
        = some "net/minecraftforge/forge/1.0/forge-1.0.jar" ∧
    strEndsWith (forgeArtifact.json.path.getD "") "-universal.jar" = false ∧
    forgeArtifact.json.url
        = some
          "https://libraries.minecraft.net/net/minecraftforge/forge/1.0/forge-1.0-universal.jar" := by
  decide

/-- C8 amended: for a pathless descriptor named net.minecraftforge:n:v (with
no special extension in the synthesized uri), the synthesized url ends with
the tail n-v-universal.jar while the synthesized path ends with n-v.jar. -/
theorem c8_forge_universal_amended (nm n v : String)
    (hsplit : strSplit nm ':' = ["net.minecraftforge", n, v])
    (h1 : strEndsWith
      ("net/minecraftforge" ++ "/" ++ n ++ "/" ++ v ++ "/" ++ n ++ "-" ++ v)
      ".jar" = false)
    (h2 : strEndsWith
      ("net/minecraftforge" ++ "/" ++ n ++ "/" ++ v ++ "/" ++ n ++ "-" ++ v)
      ".zip" = false)
    (h3 : strEndsWith
      ("net/minecraftforge" ++ "/" ++ n ++ "/" ++ v ++ "/" ++ n ++ "-" ++ v)
      ".dll" = false)
    (h4 : strEndsWith
      ("net/minecraftforge" ++ "/" ++ n ++ "/" ++ v ++ "/" ++ n ++ "-" ++ v)
      ".so" = false) :
    strEndsWith
      (((Artifact.init { name := some nm } "libraries" none none none none).json.path).getD "")
      (n ++ "-" ++ v ++ ".jar") = true ∧
    strEndsWith
      (((Artifact.init { name := some nm } "libraries" none none none none).json.url).getD "")
      (n ++ "-" ++ v ++ "-universal.jar") = true := by
  have hpkg : joinSep "/" (strSplit "net.minecraftforge" '.')
      = "net/minecraftforge" := by decide
  have hslash : strEndsWith URL_DEFAULT "/" = true := by decide
  have huni : ("-universal" : String) ++ ".jar" = "-universal.jar" := by decide
  simp only [Artifact.init, hsplit, hpkg, extSplit, h1, h2, h3, h4,
    Bool.false_eq_true, if_false, hslash, if_true]
  simp only [Option.getD_some]
  constructor
  · simp only [String.append_assoc]
    apply strEndsWith_append_left
    apply strEndsWith_append_left
    apply strEndsWith_append_left
    apply strEndsWith_append_left
    apply strEndsWith_append_left
    apply strEndsWith_append_left
    exact strEndsWith_self _
  · simp only [String.append_assoc, huni]
    apply strEndsWith_append_left
    apply strEndsWith_append_left
    apply strEndsWith_append_left
    apply strEndsWith_append_left
    apply strEndsWith_append_left
    apply strEndsWith_append_left
    apply strEndsWith_append_left
    exact strEndsWith_self _

/-- Witness for c8_forge_universal_amended at the forge:1.0 coordinate. -/
theorem c8_witness :
    strEndsWith
      (((Artifact.init { name := some "net.minecraftforge:forge:1.0" }
        "libraries" none none none none).json.path).getD "")
      ("forge" ++ "-" ++ "1.0" ++ ".jar") = true ∧
    strEndsWith
      (((Artifact.init { name := some "net.minecraftforge:forge:1.0" }
        "libraries" none none none none).json.url).getD "")
      ("forge" ++ "-" ++ "1.0" ++ "-universal.jar") = true :=
  c8_forge_universal_amended "net.minecraftforge:forge:1.0" "forge" "1.0"
    (by decide) (by decide) (by decide) (by decide) (by decide)

/-- Counterexample to C6 as stated: a library gated on a features clause that
the supplied feature map satisfies (rules_check with that map is true) is
nevertheless skipped, because get_libraries calls rules_check without the
features map. -/
theorem c6_counterexample :
    rules_check linuxPlatform featureGatedRules [("f", true)] = true ∧
    get_libraries linuxPlatform "libraries" "natives" [featureGatedLib]
      = ⟨[], [], ["com.example:demo:1.0"]⟩ := by
  decide

/-- C6 amended: the Dependency Builder evaluates library rules with the
EMPTY feature map (the features supplied to the Engine are not passed for
libraries): an entry carrying a name and a rules list is skipped exactly when
rules_check(rules, empty-map) is false or legacy clientreq == false, and a
skipped entry contributes no artifact and no path. -/
theorem c6_libraries_skip_amended (p : Platform) (ld nd : String)
    (lib : Library) (name : String) (rules : List Rule)
    (hn : lib.name = some name) (hr : lib.rules = some rules) :
    ((get_libraries p ld nd [lib]).skipped = [name] ↔
      (rules_check p rules [] = false ∨ lib.clientreq = some false))
    ∧ ((get_libraries p ld nd [lib]).skipped = [name] →
      (get_libraries p ld nd [lib]).queued = []
      ∧ (get_libraries p ld nd [lib]).libs = []) := by
  by_cases hc : rules_check p rules [] = false ∨ lib.clientreq = some false
  · have hout : get_libraries p ld nd [lib] = ⟨[], [], [name]⟩ := by
      simp [get_libraries, hn, hr, hc]
    rw [hout]
    simp [hc]
  · have hout : get_libraries p ld nd [lib]
        = ⟨process_library p ld nd lib |>.1, process_library p ld nd lib |>.2, []⟩ := by
      simp [get_libraries, hn, hr, hc]
    rw [hout]
    simp [hc]

/-- Witness for c6_libraries_skip_amended at the feature-gated library. -/
theorem c6_witness :
    ((get_libraries linuxPlatform "libraries" "natives" [featureGatedLib]).skipped
        = ["com.example:demo:1.0"] ↔
      (rules_check linuxPlatform featureGatedRules [] = false ∨
        featureGatedLib.clientreq = some false))
    ∧ ((get_libraries linuxPlatform "libraries" "natives" [featureGatedLib]).skipped
        = ["com.example:demo:1.0"] →
      (get_libraries linuxPlatform "libraries" "natives" [featureGatedLib]).queued = []
      ∧ (get_libraries linuxPlatform "libraries" "natives" [featureGatedLib]).libs = []) :=
  c6_libraries_skip_amended linuxPlatform "libraries" "natives" featureGatedLib
    "com.example:demo:1.0" featureGatedRules rfl rfl

/-- Helper: resolve_artifact_go never performs more download attempts than
the remaining attempt budget DOWNLOAD_ATTEMPTS - attempt. -/
theorem resolve_go_downloads_le (art : Artifact) (w : ResolveWorld) :
    ∀ (fuel : Nat) (fs : FS) (attempt : Nat) (v : Bool),
      attempt < DOWNLOAD_ATTEMPTS →
      (resolve_artifact_go art w fs attempt v fuel).downloads
        ≤ DOWNLOAD_ATTEMPTS - attempt := by
  intro fuel
  induction fuel with
  | zero =>
    intro fs attempt v h
    rw [resolve_artifact_go]
    dsimp only
    repeat' split
    all_goals simp only [DOWNLOAD_ATTEMPTS] at *
    all_goals try simp
    all_goals omega
  | succ f ih =>
    intro fs attempt v h
    rw [resolve_artifact_go]
    dsimp only
    repeat' split
    all_goals simp only [DOWNLOAD_ATTEMPTS] at *
    all_goals try have hrec := ih (w.fsAfter (attempt + 1)) (attempt + 1) true (by omega)
    all_goals try simp
    all_goals try simp at hrec
    all_goals omega

/-- C2: for an artifact with at least one declared checksum whose file is
initially absent, resolve_artifact with checksum verification performs at
most DOWNLOAD_ATTEMPTS (3) download attempts; when the first two attempts
leave a checksum-invalid file and the third leaves a valid one it returns
the artifact path after exactly 3 attempts with 2 inter-attempt
ATTEMPT_DELAY sleeps; when all three attempts leave an absent or invalid
file it returns None after 3 attempts and 2 sleeps. -/
theorem c2_resolve_retry_budget (art : Artifact) (w : ResolveWorld)
    (hcs : allowed_checksums art.json ≠ [])
    (h0 : art.artifact_exists w.fs0 = false) :
    (resolve_artifact art w true).downloads ≤ DOWNLOAD_ATTEMPTS
    ∧ (art.json.url ≠ none → art.json.path ≠ none →
        art.artifact_exists (w.fsAfter 1) = true →
        art.verify_checksum (w.fsAfter 1) = false →
        art.artifact_exists (w.fsAfter 2) = true →
        art.verify_checksum (w.fsAfter 2) = false →
        art.artifact_exists (w.fsAfter 3) = true →
        art.verify_checksum (w.fsAfter 3) = true →
        unpack_copy art w.unpack = true →
        resolve_artifact art w true
          = ⟨some (joinPath art.parent_dir (art.json.path.getD "")), 3, 2⟩)
    ∧ (art.json.url ≠ none → art.json.path ≠ none →
        (∀ k, 1 ≤ k → k ≤ 3 →
          art.artifact_exists (w.fsAfter k) = false
          ∨ art.verify_checksum (w.fsAfter k) = false) →
        resolve_artifact art w true = ⟨none, 3, 2⟩) := by
  refine ⟨?_, ?_, ?_⟩
  · have hb := resolve_go_downloads_le art w DOWNLOAD_ATTEMPTS w.fs0 0 true
      (by simp [DOWNLOAD_ATTEMPTS])
    simpa [resolve_artifact] using hb
  · intro hurl hpath he1 hv1 he2 hv2 he3 hv3 hu
    have g3 : resolve_artifact_go art w (w.fsAfter 2) 2 true 1
        = ⟨some (joinPath art.parent_dir (art.json.path.getD "")), 1, 0⟩ := by
      rw [resolve_artifact_go]
      simp [he2, hv2, he3, hv3, hu, hurl, hpath]
    have g2 : resolve_artifact_go art w (w.fsAfter 1) 1 true 2
        = ⟨some (joinPath art.parent_dir (art.json.path.getD "")), 2, 1⟩ := by
      rw [resolve_artifact_go]
      simp [he1, hv1, he2, hv2, hurl, hpath, DOWNLOAD_ATTEMPTS, g3]
    rw [resolve_artifact, resolve_artifact_go]
    simp [h0, hurl, hpath, he1, hv1, DOWNLOAD_ATTEMPTS, g2]
  · intro hurl hpath hscen
    have g3 : resolve_artifact_go art w (w.fsAfter 2) 2 true 1 = ⟨none, 1, 0⟩ := by
      rcases hscen 2 (by norm_num) (by norm_num) with h2 | h2 <;>
      rcases hscen 3 (by norm_num) (by norm_num) with h3 | h3 <;>
      · rw [resolve_artifact_go]
        simp [h2, h3, hurl, hpath, DOWNLOAD_ATTEMPTS]
    have g2 : resolve_artifact_go art w (w.fsAfter 1) 1 true 2 = ⟨none, 2, 1⟩ := by
      rcases hscen 1 (by norm_num) (by norm_num) with h1 | h1 <;>
      rcases hscen 2 (by norm_num) (by norm_num) with h2 | h2 <;>
      · rw [resolve_artifact_go]
        simp [h1, h2, hurl, hpath, DOWNLOAD_ATTEMPTS, g3]
    rcases hscen 1 (by norm_num) (by norm_num) with h1 | h1 <;>
    · rw [resolve_artifact, resolve_artifact_go]
      simp [h0, h1, hurl, hpath, DOWNLOAD_ATTEMPTS, g2]

/-- Witness for c2_resolve_retry_budget: a concrete sha1-checked artifact and
a world whose first two fetches are corrupt and whose third is correct. -/
theorem c2_witness :
    (resolve_artifact logConfigArtifact retryThenOkWorld true).downloads
      ≤ DOWNLOAD_ATTEMPTS
    ∧ resolve_artifact logConfigArtifact retryThenOkWorld true
      = ⟨some (joinPath logConfigArtifact.parent_dir
          (logConfigArtifact.json.path.getD "")), 3, 2⟩ :=
  ⟨(c2_resolve_retry_budget logConfigArtifact retryThenOkWorld (by decide)
      (by decide)).1,
   (c2_resolve_retry_budget logConfigArtifact retryThenOkWorld (by decide)
      (by decide)).2.1 (by decide) (by decide) (by decide) (by decide)
      (by decide) (by decide) (by decide) (by decide) (by decide)⟩

/-- C7 (code bug): resolve_artifact(artifact, verify_checksums=False) can
still fail with a checksum mismatch: the recursive retry call of source line
97 passes only _attempt, so verify_checksums resets to True on attempts 2 and
3.  Concretely, with attempt 1 leaving no file and attempts 2 and 3 leaving a
file whose checksum does not match, the call returns None after 3 attempts
even though the file exists from attempt 2 on. -/
theorem c7_retry_reverifies_bug :
    resolve_artifact logConfigArtifact retryChecksumWorld false = ⟨none, 3, 2⟩
    ∧ logConfigArtifact.artifact_exists (retryChecksumWorld.fsAfter 2) = true := by
  decide

/-- C1 (code bug): for a non-local manifest version whose descriptor fetch
succeeds, version_path_by_id(id, download=True) raises AttributeError instead
of returning the relative path: download_artifact's post-download check
(download_artifact.py line 94) reads artifact_.checksum_alg, an attribute the
Artifact class of artifact.py never defines. -/
theorem c1_version_download_raises (vi : VersionInfo) (versionsDir : String)
    (fs0 : FS) (w : DlWorld)
    (hlocal : vi.isLocal = false)
    (hurl : vi.url ≠ none)
    (habsent : (Artifact.init (versionInfoToArtifactJson vi) versionsDir
        none none none none).artifact_exists fs0 = false)
    (hfetch : w.attemptWrites 1 = true) :
    version_path_by_id [vi] vi.id true versionsDir fs0 w
      = .error .attributeError := by
  simp only [version_path_by_id, List.foldl]
  simp only [if_pos]
  simp [hlocal, download_artifact, habsent]
  rw [download_artifact_go]
  simp [Artifact.init, versionInfoToArtifactJson, hurl, hfetch]

/-- Witness for c1_version_download_raises: a concrete manifest entry on an
empty filesystem with a succeeding fetch. -/
theorem c1_witness :
    version_path_by_id [manifestVersionInfo] "1.20.1" true "game/versions"
      emptyFS alwaysWritesWorld = .error .attributeError :=
  c1_version_download_raises manifestVersionInfo "game/versions" emptyFS
    alwaysWritesWorld rfl (by decide) (by decide) rfl

/-- Helper: leBytes produces exactly n bytes. -/
theorem leBytes_length (n x : Nat) : (leBytes n x).length = n := by
  induction n generalizing x with
  | zero => rfl
  | succ m ih => simp [leBytes, ih]

/-- Helper: an MD5 digest has 16 bytes. -/
theorem md5_length (msg : List Nat) : (md5 msg).length = 16 := by
  simp [md5, leBytes_length]

/-- Helper: hex encoding doubles the length. -/
theorem bytesHex_length (bs : List Nat) :
    (bytesHex bs).length = 2 * bs.length := by
  induction bs with
  | nil => rfl
  | cons b rest ih =>
    simp [bytesHex, String.length] at ih ⊢
    omega

/-- Helper: the derived offline uuid is a 32-character string, never empty
(so the launcher always places it into the environment). -/
theorem offline_uuid_ne_empty (u : String) : offline_uuid u ≠ "" := by
  intro hc
  have hl := congrArg String.length hc
  simp only [offline_uuid] at hl
  rw [bytesHex_length] at hl
  simp [md5_length] at hl

/-- Validation of the embedded MD5 against the RFC 1321 test vector. -/
theorem md5_rfc_vector :
    bytesHex (md5 (utf8Bytes "abc")) = "900150983cd24fb0d6963f7d28e17f72" := by
  rfl

/-- The spec's S1 scenario value: the offline uuid of "Player". -/
theorem offline_uuid_player :
    offline_uuid "Player" = "a01e3843e5213998958af459800e4d11" := by
  rfl

/-- C9: with a username and no auth uuid, the launch plan's auth_uuid is the
lowercase hex encoding of the MD5 of "OfflinePlayer:"++username with byte 6
replaced by (b6 and 0x0F) or 0x30 and byte 8 by (b8 and 0x3F) or 0x80; with
no username the is_demo_user feature is enabled instead. -/
theorem c9_offline_uuid :
    (∀ (userName : String) (features : List (String × Bool)), userName ≠ "" →
      (launcher_auth userName "" features).auth_uuid =
        some (bytesHex
          (((md5 (utf8Bytes ("OfflinePlayer:" ++ userName))).set 6
              (((md5 (utf8Bytes ("OfflinePlayer:" ++ userName))).getD 6 0 &&& 15) ||| 48)).set 8
            (((md5 (utf8Bytes ("OfflinePlayer:" ++ userName))).getD 8 0 &&& 63) ||| 128))))
    ∧ (∀ (authUuid : String) (features : List (String × Bool)),
        assocGet (launcher_auth "" authUuid features).features "is_demo_user"
          = some true) := by
  constructor
  · intro userName features h
    have h68 : ((md5 (utf8Bytes ("OfflinePlayer:" ++ userName))).set 6
        (((md5 (utf8Bytes ("OfflinePlayer:" ++ userName))).getD 6 0 &&& 15) ||| 48)).getD 8 0
        = (md5 (utf8Bytes ("OfflinePlayer:" ++ userName))).getD 8 0 := by
      simp [List.getD, List.getElem?_set_ne]
    rw [launcher_auth]
    rw [if_neg h, if_pos rfl]
    simp only [if_neg (offline_uuid_ne_empty userName)]
    rw [offline_uuid]
    rw [h68]
  · intro authUuid features
    have hset : ∀ (m : List (String × Bool)),
        assocGet (assocSet m "is_demo_user" true) "is_demo_user" = some true := by
      intro m
      induction m with
      | nil => simp [assocSet, assocGet]
      | cons kv rest ih =>
        by_cases hk : kv.1 = "is_demo_user"
        · simp [assocSet, assocGet, hk]
        · cases kv
          simp_all [assocSet, assocGet]
    simp [launcher_auth, hset]

/-- Witness for c9_offline_uuid at the spec's S1 scenario username. -/
theorem c9_witness :
    (launcher_auth "Player" "" []).auth_uuid =
      some (bytesHex
        (((md5 (utf8Bytes ("OfflinePlayer:" ++ "Player"))).set 6
            (((md5 (utf8Bytes ("OfflinePlayer:" ++ "Player"))).getD 6 0 &&& 15) ||| 48)).set 8
          (((md5 (utf8Bytes ("OfflinePlayer:" ++ "Player"))).getD 8 0 &&& 63) ||| 128)))
    ∧ assocGet (launcher_auth "" "" [("f", false)]).features "is_demo_user"
      = some true :=
  ⟨c9_offline_uuid.1 "Player" [] (by decide),
   c9_offline_uuid.2 "" [("f", false)]⟩


/-- Helper: dict assignment then lookup at the same key. -/
theorem assocGet_assocSet_same {α : Type} (o : List (String × α)) (k : String) (v : α) :
    assocGet (assocSet o k v) k = some v := by
  induction o with
  | nil => simp [assocSet, assocGet]
  | cons kv rest ih =>
    cases kv with
    | mk kk vv =>
      by_cases hk : kk = k
      · simp [assocSet, assocGet, hk]
      · simp [assocSet, assocGet, hk, ih]

theorem assocGet_assocSet_ne {α : Type} (o : List (String × α)) (k' k : String) (v : α)
    (h : k' ≠ k) : assocGet (assocSet o k' v) k = assocGet o k := by
  induction o with
  | nil => simp [assocSet, assocGet, h]
  | cons kv rest ih =>
    cases kv with
    | mk kk vv =>
      by_cases hk : kk = k'
      · subst hk
        simp [assocSet, assocGet, h]
      · simp [assocSet, assocGet, hk, ih]

theorem assocGet_eq_none_of_not_mem {α : Type} (o : List (String × α)) (k : String)
    (h : k ∉ o.map Prod.fst) : assocGet o k = none := by
  induction o with
  | nil => rfl
  | cons kv rest ih =>
    cases kv with
    | mk kk vv =>
      rw [List.map_cons] at h
      have h1 : k ≠ kk := fun hc => h (by simp [hc])
      have h2 : k ∉ rest.map Prod.fst := fun hc => h (by simp [hc])
      have hne : ¬ kk = k := fun hc => h1 hc.symm
      simp only [assocGet, if_neg hne]
      exact ih h2

theorem update_deep_pairs_key (ps : List (String × JValue)) :
    ∀ (d : JObj) (m : JValue), (ps.map Prod.fst).Nodup →
    update_deep_pairs (.jobj d) ps = .ok m →
    ∃ md : JObj, m = .jobj md ∧ ∀ k : String,
      (assocGet ps k = none → assocGet md k = assocGet d k)
      ∧ (∀ xs ys : List JValue,
          assocGet d k = some (.jlist xs) → assocGet ps k = some (.jlist ys) →
          assocGet md k = some (.jlist (xs ++ ys))) := by
  induction ps with
  | nil =>
    intro d m hnd h
    simp only [update_deep_pairs] at h
    cases h
    exact ⟨d, rfl, fun k => ⟨fun _ => rfl, fun xs ys _ hc => by simp [assocGet] at hc⟩⟩
  | cons kv rest ih =>
    intro d m hnd
    cases kv with
    | mk key value =>
      simp only [List.map_cons, List.nodup_cons] at hnd
      obtain ⟨hkey, hnd'⟩ := hnd
      have hrestnone : assocGet rest key = none :=
        assocGet_eq_none_of_not_mem rest key hkey
      intro h
      cases value with
      | jobj sub =>
        simp only [update_deep_pairs, update_deep] at h
        cases hm : update_deep_pairs ((assocGet d key).getD (.jobj [])) sub with
        | error e => rw [hm] at h; simp at h
        | ok merged =>
          rw [hm] at h
          try dsimp only at h
          obtain ⟨md, hmd, hk⟩ := ih (assocSet d key merged) m hnd' h
          refine ⟨md, hmd, fun k => ⟨?_, ?_⟩⟩
          · intro hnone
            simp only [assocGet] at hnone
            by_cases hkk : key = k
            · simp [hkk] at hnone
            · simp only [if_neg hkk] at hnone
              rw [(hk k).1 hnone, assocGet_assocSet_ne d key k merged hkk]
          · intro xs ys hd hcons
            simp only [assocGet] at hcons
            by_cases hkk : key = k
            · simp [hkk] at hcons
            · simp only [if_neg hkk] at hcons
              have hd' : assocGet (assocSet d key merged) k = some (.jlist xs) := by
                rw [assocGet_assocSet_ne d key k merged hkk]; exact hd
              exact (hk k).2 xs ys hd' hcons
      | jlist items =>
        simp only [update_deep_pairs] at h
        cases hg : assocGet d key with
        | none =>
          rw [hg] at h
          try dsimp only at h
          obtain ⟨md, hmd, hk⟩ := ih (assocSet d key (.jlist items)) m hnd' h
          refine ⟨md, hmd, fun k => ⟨?_, ?_⟩⟩
          · intro hnone
            simp only [assocGet] at hnone
            by_cases hkk : key = k
            · simp [hkk] at hnone
            · simp only [if_neg hkk] at hnone
              rw [(hk k).1 hnone, assocGet_assocSet_ne d key k _ hkk]
          · intro xs ys hd hcons
            simp only [assocGet] at hcons
            by_cases hkk : key = k
            · subst hkk
              rw [hg] at hd
              cases hd
            · simp only [if_neg hkk] at hcons
              have hd' : assocGet (assocSet d key (.jlist items)) k = some (.jlist xs) := by
                rw [assocGet_assocSet_ne d key k _ hkk]; exact hd
              exact (hk k).2 xs ys hd' hcons
        | some dv =>
          cases dv with
          | jlist ditems =>
            rw [hg] at h
            try dsimp only at h
            obtain ⟨md, hmd, hk⟩ := ih (assocSet d key (.jlist (ditems ++ items))) m hnd' h
            refine ⟨md, hmd, fun k => ⟨?_, ?_⟩⟩
            · intro hnone
              simp only [assocGet] at hnone
              by_cases hkk : key = k
              · simp [hkk] at hnone
              · simp only [if_neg hkk] at hnone
                rw [(hk k).1 hnone, assocGet_assocSet_ne d key k _ hkk]
            · intro xs ys hd hcons
              simp only [assocGet] at hcons
              by_cases hkk : key = k
              · subst hkk
                rw [hg] at hd
                cases hd
                simp only [if_pos rfl] at hcons
                cases hcons
                have hmdk : assocGet md key
                    = assocGet (assocSet d key (.jlist (ditems ++ items))) key :=
                  (hk key).1 hrestnone
                rw [hmdk, assocGet_assocSet_same]
              · simp only [if_neg hkk] at hcons
                have hd' : assocGet (assocSet d key (.jlist (ditems ++ items))) k
                    = some (.jlist xs) := by
                  rw [assocGet_assocSet_ne d key k _ hkk]; exact hd
                exact (hk k).2 xs ys hd' hcons
          | jnull => rw [hg] at h; simp at h
          | jbool b => rw [hg] at h; simp at h
          | jnum n => rw [hg] at h; simp at h
          | jstr s => rw [hg] at h; simp at h
          | jobj o => rw [hg] at h; simp at h
      | jnull =>
        simp only [update_deep_pairs] at h
        obtain ⟨md, hmd, hk⟩ := ih (assocSet d key .jnull) m hnd' h
        refine ⟨md, hmd, fun k => ⟨?_, ?_⟩⟩
        · intro hnone
          simp only [assocGet] at hnone
          by_cases hkk : key = k
          · simp [hkk] at hnone
          · simp only [if_neg hkk] at hnone
            rw [(hk k).1 hnone, assocGet_assocSet_ne d key k _ hkk]
        · intro xs ys hd hcons
          simp only [assocGet] at hcons
          by_cases hkk : key = k
          · simp [hkk] at hcons
          · simp only [if_neg hkk] at hcons
            have hd' : assocGet (assocSet d key .jnull) k = some (.jlist xs) := by
              rw [assocGet_assocSet_ne d key k _ hkk]; exact hd
            exact (hk k).2 xs ys hd' hcons
      | jbool b =>
        simp only [update_deep_pairs] at h
        obtain ⟨md, hmd, hk⟩ := ih (assocSet d key (.jbool b)) m hnd' h
        refine ⟨md, hmd, fun k => ⟨?_, ?_⟩⟩
        · intro hnone
          simp only [assocGet] at hnone
          by_cases hkk : key = k
          · simp [hkk] at hnone
          · simp only [if_neg hkk] at hnone
            rw [(hk k).1 hnone, assocGet_assocSet_ne d key k _ hkk]
        · intro xs ys hd hcons
          simp only [assocGet] at hcons
          by_cases hkk : key = k
          · simp [hkk] at hcons
          · simp only [if_neg hkk] at hcons
            have hd' : assocGet (assocSet d key (.jbool b)) k = some (.jlist xs) := by
              rw [assocGet_assocSet_ne d key k _ hkk]; exact hd
            exact (hk k).2 xs ys hd' hcons
      | jnum n =>
        simp only [update_deep_pairs] at h
        obtain ⟨md, hmd, hk⟩ := ih (assocSet d key (.jnum n)) m hnd' h
        refine ⟨md, hmd, fun k => ⟨?_, ?_⟩⟩
        · intro hnone
          simp only [assocGet] at hnone
          by_cases hkk : key = k
          · simp [hkk] at hnone
          · simp only [if_neg hkk] at hnone
            rw [(hk k).1 hnone, assocGet_assocSet_ne d key k _ hkk]
        · intro xs ys hd hcons
          simp only [assocGet] at hcons
          by_cases hkk : key = k
          · simp [hkk] at hcons
          · simp only [if_neg hkk] at hcons
            have hd' : assocGet (assocSet d key (.jnum n)) k = some (.jlist xs) := by
              rw [assocGet_assocSet_ne d key k _ hkk]; exact hd
            exact (hk k).2 xs ys hd' hcons
      | jstr s =>
        simp only [update_deep_pairs] at h
        obtain ⟨md, hmd, hk⟩ := ih (assocSet d key (.jstr s)) m hnd' h
        refine ⟨md, hmd, fun k => ⟨?_, ?_⟩⟩
        · intro hnone
          simp only [assocGet] at hnone
          by_cases hkk : key = k
          · simp [hkk] at hnone
          · simp only [if_neg hkk] at hnone
            rw [(hk k).1 hnone, assocGet_assocSet_ne d key k _ hkk]
        · intro xs ys hd hcons
          simp only [assocGet] at hcons
          by_cases hkk : key = k
          · simp [hkk] at hcons
          · simp only [if_neg hkk] at hcons
            have hd' : assocGet (assocSet d key (.jstr s)) k = some (.jlist xs) := by
              rw [assocGet_assocSet_ne d key k _ hkk]; exact hd
            exact (hk k).2 xs ys hd' hcons

/-- C3: update_deep at every key where both records hold a list yields the
parent's list followed by the child's (child extends parent), and chaining
merges of A, B then C yields A ++ B ++ C at every such key. -/
theorem c3_update_deep_list_append :
    (∀ (d u : JObj) (m : JValue) (k : String) (xs ys : List JValue),
      (u.map Prod.fst).Nodup →
      update_deep (.jobj d) (.jobj u) = .ok m →
      assocGet d k = some (.jlist xs) → assocGet u k = some (.jlist ys) →
      ∃ md : JObj, m = .jobj md ∧ assocGet md k = some (.jlist (xs ++ ys)))
    ∧ (∀ (a b c : JObj) (m1 m2 : JValue) (k : String) (xs ys zs : List JValue),
      (b.map Prod.fst).Nodup → (c.map Prod.fst).Nodup →
      update_deep (.jobj a) (.jobj b) = .ok m1 →
      update_deep m1 (.jobj c) = .ok m2 →
      assocGet a k = some (.jlist xs) → assocGet b k = some (.jlist ys) →
      assocGet c k = some (.jlist zs) →
      ∃ md : JObj, m2 = .jobj md ∧ assocGet md k = some (.jlist (xs ++ ys ++ zs))) := by
  have base : ∀ (d u : JObj) (m : JValue) (k : String) (xs ys : List JValue),
      (u.map Prod.fst).Nodup →
      update_deep (.jobj d) (.jobj u) = .ok m →
      assocGet d k = some (.jlist xs) → assocGet u k = some (.jlist ys) →
      ∃ md : JObj, m = .jobj md ∧ assocGet md k = some (.jlist (xs ++ ys)) := by
    intro d u m k xs ys hnd h hd hu
    simp only [update_deep] at h
    obtain ⟨md, hmd, hk⟩ := update_deep_pairs_key u d m hnd h
    exact ⟨md, hmd, (hk k).2 xs ys hd hu⟩
  refine ⟨base, ?_⟩
  intro a b c m1 m2 k xs ys zs hndb hndc h1 h2 ha hb hc
  obtain ⟨mab, hmab, hab⟩ := base a b m1 k xs ys hndb h1 ha hb
  subst hmab
  obtain ⟨md, hmd, habc⟩ := base mab c m2 k (xs ++ ys) zs hndc h2 hab hc
  exact ⟨md, hmd, habc⟩

/-- Witness for c3_update_deep_list_append: the spec's S5 scenario records,
chained twice. -/
theorem c3_witness :
    update_deep (.jobj mergedPC) (.jobj grandRecord) = .ok (.jobj mergedPBC)
    ∧ assocGet mergedPBC "libraries"
      = some (.jlist [.jstr "L1", .jstr "L2", .jstr "L3"]) := by
  refine ⟨rfl, ?_⟩
  have h := c3_update_deep_list_append.2 parentRecord childRecord grandRecord
    (.jobj mergedPC) (.jobj mergedPBC) "libraries"
    [.jstr "L1"] [.jstr "L2"] [.jstr "L3"]
    (by decide) (by decide) rfl rfl rfl rfl rfl
  obtain ⟨md, hmd, hget⟩ := h
  injection hmd with h2
  subst h2
  exact hget
